import Mathlib

/-!
Verification of the Period Summarizer of the MyGoalFinance backend
(routes/transactions.ts, routes/goals.ts, middleware/auth.ts).

The TypeScript source is embedded shallowly:

* Amounts are modelled as integers (`ℤ`): the JS code adds `Number`
  values; every claim under study concerns which rows' amounts reach
  which totals and holds identically over any ordered commutative ring,
  and all concrete inputs used below are integral.
* The JS `Map` is modelled as an association list that preserves
  first-insertion order of keys, as `Map` iteration does.
* `new Date(y, monthIndex, day)` at local midnight is modelled by its
  civil-calendar serial day number (days since 0000-03-01), computed the
  way ECMAScript `MakeDay` normalises out-of-range month/day arguments
  (total-months arithmetic, day 0 = day before day 1), including the
  `MakeFullYear` rule that a year argument 0..99 means 1900+year.
* `Date.prototype.toISOString().slice(0, 10)` renders the UTC calendar
  day of the instant.  The server's zone offset is a parameter
  `tz` (minutes that UTC is ahead of local wall-clock time, i.e. the
  value of `getTimezoneOffset()`, non-negative for UTC-and-west zones
  such as the one the service runs in); the instant of local midnight of
  serial day `s` is then `s * 1440 + tz` minutes.
* Fallible steps return `Option`/`Except`; HTTP responses are an
  inductive result type.
-/

/-! ## Calendar arithmetic (civil from/to serial days) -/

/-- Serial day number (days since 0000-03-01) of the civil date `y-m-d`,
for dates at or after 0000-03-01, computed with the era/year-of-era
decomposition that `Date` needs for `MakeDay`. -/
def daysFromCivil (y m d : Nat) : Nat :=
  let yr := if m ≤ 2 then y - 1 else y
  let era := yr / 400
  let yoe := yr % 400
  let mp := if 2 < m then m - 3 else m + 9
  let doy := (153 * mp + 2) / 5 + d - 1
  let doe := yoe * 365 + yoe / 4 - yoe / 100 + doy
  era * 146097 + doe

/-- Civil date `(y, m, d)` of a serial day number (days since 0000-03-01):
the inverse direction, as `toISOString` needs to render an instant. -/
def civilFromDays (z : Nat) : Nat × Nat × Nat :=
  let era := z / 146097
  let doe := z % 146097
  let yoe := (doe - doe / 1460 + doe / 36524 - doe / 146096) / 365
  let y := yoe + era * 400
  let doy := doe - (365 * yoe + yoe / 4 - yoe / 100)
  let mp := (5 * doy + 2) / 153
  let d := doy - (153 * mp + 2) / 5 + 1
  let m := if mp < 10 then mp + 3 else mp - 9
  (if m ≤ 2 then y + 1 else y, m, d)

/-- ECMAScript `MakeFullYear`: a year argument between 0 and 99 is
interpreted as 1900 + year by the `new Date(y, m, d)` constructor. -/
def jsYearAdjust (y : Nat) : Nat :=
  if y ≤ 99 then 1900 + y else y

/-- ECMAScript `MakeDay` for `new Date(·, ·, d)` restricted to `d ∈ {0, 1}`
(the only day arguments `firstLastDayOfMonth` uses): month overflow is
normalised through total months, and day `d` contributes `d - 1` days
beyond the first of the normalised month, so day 0 is the day before
day 1.  `tm` is `year * 12 + monthIndex`. -/
def jsMakeDay (tm d : Nat) : Nat :=
  daysFromCivil (tm / 12) (tm % 12 + 1) 1 + d - 1

/-! ## Digits, tokens and rendering -/

/-- The decimal digit character for `n < 10`. -/
def digitChar (n : Nat) : Char :=
  match n with
  | 0 => '0' | 1 => '1' | 2 => '2' | 3 => '3' | 4 => '4'
  | 5 => '5' | 6 => '6' | 7 => '7' | 8 => '8' | _ => '9'

def isDigit (c : Char) : Bool :=
  decide (48 ≤ c.toNat) && decide (c.toNat ≤ 57)

def digitVal (c : Char) : Nat := c.toNat - 48

/-- Two-digit zero padded rendering, as `String(x).padStart(2, '0')`
produces for `x < 100`. -/
def pad2list (n : Nat) : List Char :=
  [digitChar (n / 10 % 10), digitChar (n % 10)]

/-- Four-digit zero padded rendering; for years 1000..9999 this agrees
with the unpadded `getFullYear()` template interpolation, and it is the
year field `toISOString` prints for years 0..9999. -/
def pad4list (n : Nat) : List Char :=
  [digitChar (n / 1000 % 10), digitChar (n / 100 % 10),
   digitChar (n / 10 % 10), digitChar (n % 10)]

/-- `YYYY-MM` token for a year/month pair. -/
def renderYM (y m : Nat) : String :=
  ⟨pad4list y ++ '-' :: pad2list m⟩

/-- `YYYY-MM-DD` string for a civil date. -/
def ymdString (y m d : Nat) : String :=
  ⟨pad4list y ++ '-' :: (pad2list m ++ '-' :: pad2list d)⟩

/-- Parse a `YYYY-MM` token: succeeds exactly on the strings matched by
the source's regex `^\d\x7b4\x7d-\d\x7b2\x7d$`, giving the numeric year
and month that `ym.split('-').map(Number)` yields. -/
def parseYM (s : String) : Option (Nat × Nat) :=
  match s.toList with
  | [c1, c2, c3, c4, dash, c5, c6] =>
    if isDigit c1 && isDigit c2 && isDigit c3 && isDigit c4 &&
        dash == '-' && isDigit c5 && isDigit c6 then
      some ((((digitVal c1 * 10 + digitVal c2) * 10 + digitVal c3) * 10 + digitVal c4),
            digitVal c5 * 10 + digitVal c6)
    else none
  | _ => none

/-- `YM.test`: the month token matches `^\d\x7b4\x7d-\d\x7b2\x7d$`. -/
def ymTest (s : String) : Bool := (parseYM s).isSome

/-- Parse a `YYYY-MM-DD` token (the source's regex
`^\d\x7b4\x7d-\d\x7b2\x7d-\d\x7b2\x7d$`). -/
def parseYMD (s : String) : Option (Nat × Nat × Nat) :=
  match s.toList with
  | [c1, c2, c3, c4, dash1, c5, c6, dash2, c7, c8] =>
    if isDigit c1 && isDigit c2 && isDigit c3 && isDigit c4 &&
        dash1 == '-' && isDigit c5 && isDigit c6 &&
        dash2 == '-' && isDigit c7 && isDigit c8 then
      some ((((digitVal c1 * 10 + digitVal c2) * 10 + digitVal c3) * 10 + digitVal c4),
            digitVal c5 * 10 + digitVal c6,
            digitVal c7 * 10 + digitVal c8)
    else none
  | _ => none

/-- `YMD.test`. -/
def ymdTest (s : String) : Bool := (parseYMD s).isSome

/-- `toISOString().slice(0, 10)` of the instant "local midnight of serial
day `serial`", on a server whose `getTimezoneOffset()` is `tz` minutes
(UTC at or ahead of local time): the UTC calendar day of that instant. -/
def fmtISODate (tz serial : Nat) : String :=
  let c := civilFromDays ((serial * 1440 + tz) / 1440)
  ymdString c.1 c.2.1 c.2.2

/-- `firstLastDayOfMonth` of routes/transactions.ts: split the token,
take local midnight of day 1 of the month and of day 0 of the following
month, and render both through `toISOString`.  `none` models the
`RangeError` that `toISOString` raises on an invalid date (unreachable
for tokens matching `YYYY-MM`). -/
def firstLastDayOfMonth (tz : Nat) (ym : String) : Option (String × String) :=
  match parseYM ym with
  | none => none
  | some (yy, mm) =>
    let yr := jsYearAdjust yy
    some (fmtISODate tz (jsMakeDay (yr * 12 + mm - 1) 1),
          fmtISODate tz (jsMakeDay (yr * 12 + mm) 0))

/-! ## Spec-side calendar facts (for comparison with the source) -/

/-- Modelled from the spec: Gregorian leap year. -/
def isLeap (y : Nat) : Bool :=
  (y % 4 == 0 && y % 100 != 0) || y % 400 == 0

/-- Modelled from the spec: the number of the last calendar day of month
`m` of year `y` (28/29 for February, 30/31 otherwise). -/
def specLastDay (y m : Nat) : Nat :=
  if m == 2 then (if isLeap y then 29 else 28)
  else if m == 4 || m == 6 || m == 9 || m == 11 then 30
  else 31

/-- One month's worth of the correctness of the serial-day round trip:
day 1 of the month and day 0 of the next month convert back to the first
and last civil day of the month. -/
def monthOk (y m : Nat) : Bool :=
  decide (civilFromDays (jsMakeDay (y * 12 + m - 1) 1) = (y, m, 1)) &&
  decide (civilFromDays (jsMakeDay (y * 12 + m) 0) = (y, m, specLastDay y m))

/-! ## Round-trip correctness of the serial-day conversions

The conversions repeat with period 400 years (146097 days), so the
statement is checked exhaustively on one era and lifted by periodicity. -/

set_option maxHeartbeats 1000000 in
set_option maxRecDepth 10000 in
theorem monthOk_base : ∀ a < 400, ∀ b < 12, monthOk (100 + a) (1 + b) = true := by
  decide

theorem daysFromCivil_add400 (y m d : Nat) (hy : 1 ≤ y) :
    daysFromCivil (y + 400) m d = daysFromCivil y m d + 146097 := by
  simp only [daysFromCivil]
  by_cases hm : m ≤ 2
  · simp only [if_pos hm, if_neg (show ¬ 2 < m from by omega)]
    omega
  · simp only [if_neg hm, if_pos (show 2 < m from by omega)]
    omega

theorem civilFromDays_add146097 (z : Nat) :
    civilFromDays (z + 146097) =
      ((civilFromDays z).1 + 400, (civilFromDays z).2.1, (civilFromDays z).2.2) := by
  simp only [civilFromDays]
  have h1 : (z + 146097) / 146097 = z / 146097 + 1 := by omega
  have h2 : (z + 146097) % 146097 = z % 146097 := by omega
  rw [h1, h2]
  rw [Prod.mk.injEq, Prod.mk.injEq]
  refine ⟨?_, rfl, rfl⟩
  split_ifs <;> omega

theorem specLastDay_add400 (y m : Nat) : specLastDay (y + 400) m = specLastDay y m := by
  simp only [specLastDay, isLeap]
  have h4 : (y + 400) % 4 = y % 4 := by omega
  have h100 : (y + 400) % 100 = y % 100 := by omega
  have h400 : (y + 400) % 400 = y % 400 := by omega
  simp only [h4, h100, h400]

theorem daysFromCivil_pos (y m : Nat) (hy : 1 ≤ y) : 1 ≤ daysFromCivil y m 1 := by
  simp only [daysFromCivil]
  by_cases hm : m ≤ 2
  · simp only [if_pos hm, if_neg (show ¬ 2 < m from by omega)]
    omega
  · simp only [if_neg hm, if_pos (show 2 < m from by omega)]
    omega

theorem jsMakeDay_add4800 (tm d : Nat) (htm : 12 ≤ tm) (hd : d ≤ 1) :
    jsMakeDay (tm + 4800) d = jsMakeDay tm d + 146097 := by
  simp only [jsMakeDay]
  have h1 : (tm + 4800) / 12 = tm / 12 + 400 := by omega
  have h2 : (tm + 4800) % 12 = tm % 12 := by omega
  have hpos : 1 ≤ daysFromCivil (tm / 12) (tm % 12 + 1) 1 :=
    daysFromCivil_pos _ _ (by omega)
  rw [h1, h2, daysFromCivil_add400 _ _ _ (by omega)]
  omega

theorem monthOk_spec {y m : Nat} (h : monthOk y m = true) :
    civilFromDays (jsMakeDay (y * 12 + m - 1) 1) = (y, m, 1) ∧
    civilFromDays (jsMakeDay (y * 12 + m) 0) = (y, m, specLastDay y m) := by
  simpa [monthOk, Bool.and_eq_true, decide_eq_true_eq] using h

theorem monthOk_add400 (y m : Nat) (hy : 1 ≤ y) (hm : 1 ≤ m) (hm2 : m ≤ 12)
    (h : monthOk y m = true) : monthOk (y + 400) m = true := by
  obtain ⟨h1, h2⟩ := monthOk_spec h
  have e1 : (y + 400) * 12 + m - 1 = (y * 12 + m - 1) + 4800 := by omega
  have e2 : (y + 400) * 12 + m = (y * 12 + m) + 4800 := by omega
  simp only [monthOk, Bool.and_eq_true, decide_eq_true_eq]
  constructor
  · rw [e1, jsMakeDay_add4800 _ _ (by omega) (by omega), civilFromDays_add146097, h1]
  · rw [e2, jsMakeDay_add4800 _ _ (by omega) (by omega), civilFromDays_add146097, h2,
      specLastDay_add400]

theorem monthOk_true : ∀ y m : Nat, 100 ≤ y → 1 ≤ m → m ≤ 12 → monthOk y m = true := by
  intro y
  induction y using Nat.strong_induction_on with
  | _ y ih =>
    intro m hy hm hm2
    rcases Nat.lt_or_ge y 500 with h | h
    · have hb := monthOk_base (y - 100) (by omega) (m - 1) (by omega)
      have e1 : 100 + (y - 100) = y := by omega
      have e2 : 1 + (m - 1) = m := by omega
      rwa [e1, e2] at hb
    · have e : y = (y - 400) + 400 := by omega
      rw [e]
      exact monthOk_add400 _ _ (by omega) hm hm2 (ih (y - 400) (by omega) m (by omega) hm hm2)


/-! ## Token parsing and rendering lemmas -/

theorem digitChar_isDigit (x : Nat) (h : x < 10) : isDigit (digitChar x) = true := by
  interval_cases x <;> decide

theorem digitVal_digitChar (x : Nat) (h : x < 10) : digitVal (digitChar x) = x := by
  interval_cases x <;> decide

theorem parseYM_renderYM (y m : Nat) (hy : y ≤ 9999) (hm : m ≤ 99) :
    parseYM (renderYM y m) = some (y, m) := by
  have d1 : y / 1000 % 10 < 10 := Nat.mod_lt _ (by omega)
  have d2 : y / 100 % 10 < 10 := Nat.mod_lt _ (by omega)
  have d3 : y / 10 % 10 < 10 := Nat.mod_lt _ (by omega)
  have d4 : y % 10 < 10 := Nat.mod_lt _ (by omega)
  have d5 : m / 10 % 10 < 10 := Nat.mod_lt _ (by omega)
  have d6 : m % 10 < 10 := Nat.mod_lt _ (by omega)
  simp only [renderYM, parseYM, String.toList, pad4list, pad2list,
    List.cons_append, List.nil_append]
  simp only [digitChar_isDigit _ d1, digitChar_isDigit _ d2, digitChar_isDigit _ d3,
    digitChar_isDigit _ d4, digitChar_isDigit _ d5, digitChar_isDigit _ d6,
    digitVal_digitChar _ d1, digitVal_digitChar _ d2, digitVal_digitChar _ d3,
    digitVal_digitChar _ d4, digitVal_digitChar _ d5, digitVal_digitChar _ d6]
  simp only [Bool.and_true, Bool.true_and, beq_self_eq_true, if_true, reduceIte,
    Option.some.injEq, Prod.mk.injEq]
  omega

theorem fmtISODate_tz (tz s : Nat) (h : tz < 1440) :
    fmtISODate tz s =
      ymdString (civilFromDays s).1 (civilFromDays s).2.1 (civilFromDays s).2.2 := by
  simp only [fmtISODate]
  have he : (s * 1440 + tz) / 1440 = s := by omega
  rw [he]

/-! ## Claim C1: resolve-period correctness -/

/-- C1 (amended): for every month token `YYYY-MM` whose year field is at
least 100 and whose month field is an actual month 01..12, and on a
server at or west of UTC, `firstLastDayOfMonth` returns `from` = the
`YYYY-MM-DD` string of the first calendar day of the month and `to` =
that of its last calendar day (28/29/30/31, leap years included).  For
year fields 00..99 the `Date` constructor's two-digit-year rule shifts
the century (see the counterexample). -/
theorem C1_resolvePeriod_correct (tz yy mm : Nat) (htz : tz < 1440)
    (hy : 100 ≤ yy) (hy2 : yy ≤ 9999) (hm : 1 ≤ mm) (hm2 : mm ≤ 12) :
    firstLastDayOfMonth tz (renderYM yy mm) =
      some (ymdString yy mm 1, ymdString yy mm (specLastDay yy mm)) := by
  have hp := parseYM_renderYM yy mm (by omega) (by omega)
  have hadj : jsYearAdjust yy = yy := by
    simp only [jsYearAdjust, if_neg (show ¬ yy ≤ 99 from by omega)]
  obtain ⟨h1, h2⟩ := monthOk_spec (monthOk_true yy mm hy hm hm2)
  simp only [firstLastDayOfMonth, hp, hadj, fmtISODate_tz _ _ htz, h1, h2]

/-- C1 witness: the two month tokens singled out by the claim, resolved
concretely through the theorem. -/
theorem C1_resolvePeriod_correct_witness :
    firstLastDayOfMonth 0 "2024-02" = some ("2024-02-01", "2024-02-29") ∧
    firstLastDayOfMonth 0 "2023-02" = some ("2023-02-01", "2023-02-28") := by
  constructor
  · have h := C1_resolvePeriod_correct 0 2024 2 (by omega) (by omega) (by omega)
      (by omega) (by omega)
    rw [show renderYM 2024 2 = "2024-02" from by decide,
      show specLastDay 2024 2 = 29 from by decide] at h
    rw [h]
    decide
  · have h := C1_resolvePeriod_correct 0 2023 2 (by omega) (by omega) (by omega)
      (by omega) (by omega)
    rw [show renderYM 2023 2 = "2023-02" from by decide,
      show specLastDay 2023 2 = 28 from by decide] at h
    rw [h]
    decide

/-- C1 counterexample: "0099-02" matches `YYYY-MM` and denotes February
of year 99, but the implementation resolves it to February 1999 — the
`Date` constructor maps year arguments 0..99 to 1900+year — so the claim
as stated fails on four-digit year fields below 0100. -/
theorem C1_counterexample :
    firstLastDayOfMonth 0 "0099-02" = some ("1999-02-01", "1999-02-28") ∧
    firstLastDayOfMonth 0 "0099-02" ≠ some (ymdString 99 2 1, ymdString 99 2 28) := by
  decide

/-! ## Transaction rows and the monthly summary aggregation

`GET /summary/month` selects `type, amount, category_id` for the owner's
rows in the resolved period.  The store contract only guarantees the
three fields: `type` is whatever string the column holds, `amount` a
number, `category_id` a number or null. -/

structure Row where
  type : String
  amount : ℤ
  category_id : Option Nat
  deriving DecidableEq

/-- `byCat.set(k, v)`: JS `Map.set` keeps the first-insertion position of
an existing key and appends a new key at the end. -/
def mapSet (m : List (Nat × ℤ)) (k : Nat) (v : ℤ) : List (Nat × ℤ) :=
  match m with
  | [] => [(k, v)]
  | (k', v') :: rest => if k' = k then (k', v) :: rest else (k', v') :: mapSet rest k v

/-- `byCat.get(k)`: lookup by key. -/
def mapGet (m : List (Nat × ℤ)) (k : Nat) : Option ℤ :=
  match m with
  | [] => none
  | (k', v) :: rest => if k' = k then some v else mapGet rest k

/-- One iteration of the aggregation loop, on the state
`(inc, exp, byCat)`: income rows add to `inc`, any other row adds to
`exp`, and a non-null category accumulates into the map. -/
def sumStep (acc : ℤ × ℤ × List (Nat × ℤ)) (r : Row) : ℤ × ℤ × List (Nat × ℤ) :=
  let inc := if r.type = "income" then acc.1 + r.amount else acc.1
  let exp := if r.type = "income" then acc.2.1 else acc.2.1 + r.amount
  let byCat := match r.category_id with
    | some c => mapSet acc.2.2 c ((mapGet acc.2.2 c).getD 0 + r.amount)
    | none => acc.2.2
  (inc, exp, byCat)

/-- The single pass over the fetched rows, starting from
`inc = 0, exp = 0` and an empty map. -/
def aggregate (rows : List Row) : ℤ × ℤ × List (Nat × ℤ) :=
  rows.foldl sumStep (0, 0, [])

/-- Insert a pair into a list already sorted by descending total,
before the first entry whose total is not larger — i.e. before entries
with equal totals that originated later in the input, which is where a
stable sort keeps an earlier element. -/
def insertDesc (p : Nat × ℤ) : List (Nat × ℤ) → List (Nat × ℤ)
  | [] => [p]
  | q :: rest => if p.2 < q.2 then q :: insertDesc p rest else p :: q :: rest

/-- `.sort((a, b) => b.total - a.total)`: the comparator orders by total
descending and `Array.prototype.sort` is stable, so the result is the
unique stable non-increasing-by-total reordering, realised here by a
stable insertion sort. -/
def sortByTotalDesc : List (Nat × ℤ) → List (Nat × ℤ)
  | [] => []
  | p :: rest => insertDesc p (sortByTotalDesc rest)

/-- The derived Summary: totals, `net = inc - exp`, and the category
map converted to pairs and sorted by total descending. -/
structure Summary where
  inc : ℤ
  exp : ℤ
  net : ℤ
  byCategory : List (Nat × ℤ)
  deriving DecidableEq

def summarize (rows : List Row) : Summary :=
  let acc := aggregate rows
  { inc := acc.1
    exp := acc.2.1
    net := acc.1 - acc.2.1
    byCategory := sortByTotalDesc acc.2.2 }

/-! ## The HTTP handlers around the summary -/

/-- Response body of `GET /summary/month`. -/
structure SummaryResp where
  month : String
  fromS : String
  toS : String
  inc : ℤ
  exp : ℤ
  net : ℤ
  byCategory : List (Nat × ℤ)
  deriving DecidableEq

/-- Outcome of the summary endpoint: an error status with the `detail`
payload, or the JSON body. -/
inductive Resp where
  | err (status : Nat) (detail : String)
  | ok (body : SummaryResp)
  deriving DecidableEq

/-- `GET /summary/month`.  `now` is the server's local (year, month);
`profileId` the result of `getProfileIdByAuthId`; `queryMonth` the
`month` query parameter (`none` also covers a non-string value);
`fetchResult` the store's answer for the resolved range.  The month
token is the query value when it matches `YYYY-MM`, otherwise the
current month; the fetch error branch returns status 400 with the
store's message; otherwise the rows are folded into the summary. -/
def summaryMonthHandler (tz : Nat) (now : Nat × Nat) (profileId : Option Nat)
    (queryMonth : Option String) (fetchResult : Except String (List Row)) : Resp :=
  match profileId with
  | none => .err 404 "Perfil no encontrado"
  | some _ =>
    let month := match queryMonth with
      | some s => if ymTest s then s else renderYM now.1 now.2
      | none => renderYM now.1 now.2
    let r := (firstLastDayOfMonth tz month).getD ("", "")
    match fetchResult with
    | .error msg => .err 400 msg
    | .ok rows =>
      let s := summarize rows
      .ok { month := month, fromS := r.1, toS := r.2,
            inc := s.inc, exp := s.exp, net := s.net, byCategory := s.byCategory }

/-- Outcome of the validation prefix of `GET /` (the list endpoint). -/
inductive ListOutcome where
  | notFound
  | badRequest
  | proceeds (fromS toS : Option String) (typeS : Option String)
  deriving DecidableEq

/-- `listQuerySchema.safeParse`: every supplied field must match its
pattern (month `YYYY-MM`, from/to `YYYY-MM-DD`, type the enum). -/
def listQueryValid (month fromS toS typeS : Option String) : Bool :=
  (match month with | some s => ymTest s | none => true) &&
  (match fromS with | some s => ymdTest s | none => true) &&
  (match toS with | some s => ymdTest s | none => true) &&
  (match typeS with | some s => s == "income" || s == "expense" | none => true)

/-- `GET /` up to the store query: 404 without a profile, 400 when the
query fails validation, and otherwise the range the store will be
filtered with (a supplied month token is converted to the month's
range, overriding from/to). -/
def listHandlerGate (tz : Nat) (profileId : Option Nat)
    (month fromS toS typeS : Option String) : ListOutcome :=
  match profileId with
  | none => .notFound
  | some _ =>
    if listQueryValid month fromS toS typeS then
      match month with
      | some s =>
        match firstLastDayOfMonth tz s with
        | some r => .proceeds (some r.1) (some r.2) typeS
        | none => .proceeds fromS toS typeS
      | none => .proceeds fromS toS typeS
    else .badRequest

/-! ## Claim C2: malformed month tokens -/

/-- C2 (amended): a month token failing the `YYYY-MM` pattern is a
client error only in the list endpoint; the summary endpoint instead
silently behaves exactly as if no month had been supplied (current-month
fallback). -/
theorem C2_invalidMonth (tz : Nat) (now : Nat × Nat) (pid : Nat) (s : String)
    (fromS toS typeS : Option String) (fetch : Except String (List Row))
    (h : ymTest s = false) :
    summaryMonthHandler tz now (some pid) (some s) fetch =
      summaryMonthHandler tz now (some pid) none fetch ∧
    listHandlerGate tz (some pid) (some s) fromS toS typeS = .badRequest := by
  constructor
  · simp [summaryMonthHandler, h]
  · simp [listHandlerGate, listQueryValid, h]

/-- C2 witness: the concrete malformed token "2024-2" (no zero padding)
is rejected by the list endpoint and silently defaulted by the summary
endpoint. -/
theorem C2_invalidMonth_witness :
    summaryMonthHandler 0 (2025, 10) (some 1) (some "2024-2") (.ok []) =
      summaryMonthHandler 0 (2025, 10) (some 1) none (.ok []) ∧
    listHandlerGate 0 (some 1) (some "2024-2") none none none = .badRequest :=
  C2_invalidMonth 0 (2025, 10) 1 "2024-2" none none none (.ok []) (by decide)

/-- C2 counterexample: a request to the summary endpoint whose month
token fails the pattern does not fail with a client error — it succeeds
against the current month (here (2025, 10)), although a (malformed)
period was supplied, so the default is not restricted to the
no-period-supplied case. -/
theorem C2_counterexample :
    summaryMonthHandler 0 (2025, 10) (some 1) (some "not-a-month") (.ok []) =
      .ok { month := "2025-10", fromS := "2025-10-01", toS := "2025-10-31",
            inc := 0, exp := 0, net := 0, byCategory := [] } := by
  decide

/-! ## Claim C6: store failure propagation -/

/-- C6: when the store fetch fails, the summary endpoint answers with
status 400 carrying exactly the store's message; the result carries no
totals, and the handler consumes a single fetch outcome (no retry). -/
theorem C6_fetchError (tz : Nat) (now : Nat × Nat) (pid : Nat)
    (queryMonth : Option String) (msg : String) :
    summaryMonthHandler tz now (some pid) queryMonth (.error msg) = .err 400 msg := by
  cases queryMonth <;> rfl

/-! ## Claims C7 and C8: net identity and the empty summary -/

/-- C7: the summary's `net` is exactly `inc - exp`. -/
theorem C7_net_eq_inc_sub_exp (rows : List Row) :
    (summarize rows).net = (summarize rows).inc - (summarize rows).exp := rfl

/-- Projection of a handler outcome to its totals, `none` on errors. -/
def respTotals : Resp → Option (ℤ × ℤ × ℤ × List (Nat × ℤ))
  | .err _ _ => none
  | .ok b => some (b.inc, b.exp, b.net, b.byCategory)

/-- C8: an empty fetched row set summarizes to all-zero totals and an
empty category sequence, both for `summarize` itself and through the
summary endpoint. -/
theorem C8_emptyRows :
    (summarize [] = { inc := 0, exp := 0, net := 0, byCategory := [] }) ∧
    ∀ (tz : Nat) (now : Nat × Nat) (pid : Nat) (qm : Option String),
      respTotals (summaryMonthHandler tz now (some pid) qm (.ok [])) =
        some (0, 0, 0, []) := by
  constructor
  · decide
  · intro tz now pid qm
    cases qm <;> simp [summaryMonthHandler, respTotals, summarize, aggregate] <;> decide

/-! ## Claim C3: the income/expense split of the single pass -/

theorem foldl_sumStep_inc : ∀ (rows : List Row) (acc : ℤ × ℤ × List (Nat × ℤ)),
    (rows.foldl sumStep acc).1 =
      acc.1 + ((rows.filter (fun r => r.type == "income")).map Row.amount).sum
  | [], acc => by simp
  | r :: rows, acc => by
    simp only [List.foldl_cons, List.filter_cons, foldl_sumStep_inc rows]
    by_cases h : r.type = "income"
    · simp only [sumStep, if_pos h, h, beq_self_eq_true, if_true, List.map_cons, List.sum_cons]
      ring
    · simp only [sumStep, if_neg h]
      have hb : (r.type == "income") = false := by simpa using h
      simp [hb]

theorem foldl_sumStep_exp : ∀ (rows : List Row) (acc : ℤ × ℤ × List (Nat × ℤ)),
    (rows.foldl sumStep acc).2.1 =
      acc.2.1 + ((rows.filter (fun r => !(r.type == "income"))).map Row.amount).sum
  | [], acc => by simp
  | r :: rows, acc => by
    simp only [List.foldl_cons, List.filter_cons, foldl_sumStep_exp rows]
    by_cases h : r.type = "income"
    · have hb : (r.type == "income") = true := by simpa using h
      simp [sumStep, h, hb]
    · have hb : (r.type == "income") = false := by simpa using h
      simp only [sumStep, if_neg h, hb, Bool.not_false, if_true, List.map_cons, List.sum_cons]
      ring

/-- C3 (amended): in the single pass, `inc` is the sum of the amounts of
exactly the rows whose kind is `income`, and `exp` is the sum of the
amounts of all remaining rows — rows whose kind is `expense` and rows of
any other kind alike (the loop's `else` branch draws no distinction). -/
theorem C3_aggregation_split (rows : List Row) :
    (summarize rows).inc =
      ((rows.filter (fun r => r.type == "income")).map Row.amount).sum ∧
    (summarize rows).exp =
      ((rows.filter (fun r => !(r.type == "income"))).map Row.amount).sum := by
  constructor
  · simpa [summarize, aggregate] using foldl_sumStep_inc rows (0, 0, [])
  · simpa [summarize, aggregate] using foldl_sumStep_exp rows (0, 0, [])

/-- C3 counterexample: a fetched row whose kind is neither `income` nor
`expense` (the store contract does not exclude this) is added to `exp`
by the loop's `else` branch, although the claim says such a row
contributes to neither total. -/
theorem C3_counterexample :
    (summarize [{ type := "transfer", amount := 5, category_id := none }]).exp = 5 ∧
    (summarize [{ type := "transfer", amount := 5, category_id := none }]).inc = 0 ∧
    (summarize [{ type := "transfer", amount := 5, category_id := none }]).exp ≠ 0 := by
  decide

/-! ## Claim C5: rows without a category -/

/-- C5: a fetched row with a null category reference moves `inc` or
`exp` according to its kind but leaves the category map — and hence
`byCategory` — unchanged. -/
theorem C5_nullCategory (rows : List Row) (r : Row) (h : r.category_id = none) :
    (summarize (rows ++ [r])).byCategory = (summarize rows).byCategory ∧
    (summarize (rows ++ [r])).inc =
      (summarize rows).inc + (if r.type = "income" then r.amount else 0) ∧
    (summarize (rows ++ [r])).exp =
      (summarize rows).exp + (if r.type = "income" then 0 else r.amount) := by
  have ha : aggregate (rows ++ [r]) = sumStep (aggregate rows) r := by
    simp [aggregate, List.foldl_append]
  refine ⟨?_, ?_, ?_⟩ <;> simp only [summarize, ha, sumStep, h] <;>
    by_cases ht : r.type = "income" <;> simp [ht]

/-- C5 witness: a null-category income row on top of the empty row set. -/
theorem C5_nullCategory_witness :
    (summarize ([] ++ [{ type := "income", amount := 7, category_id := none : Row }])).byCategory
        = (summarize []).byCategory ∧
    (summarize ([] ++ [{ type := "income", amount := 7, category_id := none : Row }])).inc
        = (summarize []).inc +
          (if ({ type := "income", amount := 7, category_id := none : Row }).type = "income"
            then ({ type := "income", amount := 7, category_id := none : Row }).amount else 0) ∧
    (summarize ([] ++ [{ type := "income", amount := 7, category_id := none : Row }])).exp
        = (summarize []).exp +
          (if ({ type := "income", amount := 7, category_id := none : Row }).type = "income"
            then 0 else ({ type := "income", amount := 7, category_id := none : Row }).amount) :=
  C5_nullCategory [] { type := "income", amount := 7, category_id := none } rfl

/-! ## Claim C4: descending order of the category breakdown -/

theorem mem_insertDesc {p b : Nat × ℤ} :
    ∀ {l : List (Nat × ℤ)}, b ∈ insertDesc p l ↔ b = p ∨ b ∈ l := by
  intro l
  induction l with
  | nil => simp [insertDesc]
  | cons q rest ih =>
    simp only [insertDesc]
    split_ifs with hlt
    · simp only [List.mem_cons, ih]
      tauto
    · simp only [List.mem_cons]

theorem pairwise_insertDesc (p : Nat × ℤ) (l : List (Nat × ℤ))
    (h : l.Pairwise (fun a b => b.2 ≤ a.2)) :
    (insertDesc p l).Pairwise (fun a b => b.2 ≤ a.2) := by
  induction l with
  | nil => simp [insertDesc]
  | cons q rest ih =>
    rw [List.pairwise_cons] at h
    obtain ⟨hq, hrest⟩ := h
    simp only [insertDesc]
    split_ifs with hlt
    · rw [List.pairwise_cons]
      refine ⟨?_, ih hrest⟩
      intro b hb
      rcases mem_insertDesc.mp hb with rfl | hb
      · exact le_of_lt hlt
      · exact hq b hb
    · rw [List.pairwise_cons]
      refine ⟨?_, List.pairwise_cons.mpr ⟨hq, hrest⟩⟩
      intro b hb
      rcases List.mem_cons.mp hb with rfl | hb
      · exact not_lt.mp hlt
      · exact le_trans (hq b hb) (not_lt.mp hlt)

theorem sorted_sortByTotalDesc (l : List (Nat × ℤ)) :
    (sortByTotalDesc l).Pairwise (fun a b => b.2 ≤ a.2) := by
  induction l with
  | nil => simp [sortByTotalDesc]
  | cons p rest ih => exact pairwise_insertDesc p _ ih

theorem mem_sortByTotalDesc {b : Nat × ℤ} :
    ∀ {l : List (Nat × ℤ)}, b ∈ sortByTotalDesc l ↔ b ∈ l := by
  intro l
  induction l with
  | nil => simp [sortByTotalDesc]
  | cons p rest ih =>
    simp only [sortByTotalDesc, mem_insertDesc, List.mem_cons, ih]

/-- C4: every summary's `byCategory` is ordered by non-increasing total
(ties in unspecified — here stable — order), and the claim's concrete
instance: totals {cat 1 ↦ 30, cat 2 ↦ 50, cat 3 ↦ 10} come out as
[(2, 50), (1, 30), (3, 10)]. -/
theorem C4_byCategory_sorted :
    (∀ rows : List Row, (summarize rows).byCategory.Pairwise (fun a b => b.2 ≤ a.2)) ∧
    (summarize [{ type := "income", amount := 30, category_id := some 1 },
                { type := "income", amount := 50, category_id := some 2 },
                { type := "income", amount := 10, category_id := some 3 }]).byCategory
      = [(2, 50), (1, 30), (3, 10)] := by
  constructor
  · intro rows
    exact sorted_sortByTotalDesc _
  · decide

/-! ## Claim C9: per-category totals mix both kinds with one sign -/

theorem mapGet_mapSet_self : ∀ (m : List (Nat × ℤ)) (k : Nat) (v : ℤ),
    mapGet (mapSet m k v) k = some v
  | [], k, v => by simp [mapSet, mapGet]
  | (k', v') :: rest, k, v => by
    simp only [mapSet]
    split_ifs with h
    · simp [mapGet, h]
    · simp [mapGet, h, mapGet_mapSet_self rest k v]

theorem mapGet_mapSet_ne : ∀ (m : List (Nat × ℤ)) (k c : Nat) (v : ℤ), k ≠ c →
    mapGet (mapSet m k v) c = mapGet m c
  | [], k, c, v, h => by simp [mapSet, mapGet, h]
  | (k', v') :: rest, k, c, v, h => by
    simp only [mapSet]
    split_ifs with h2
    · subst h2
      simp [mapGet, h]
    · simp only [mapGet]
      split_ifs with h3
      · rfl
      · exact mapGet_mapSet_ne rest k c v h

theorem foldl_sumStep_byCat : ∀ (rows : List Row) (acc : ℤ × ℤ × List (Nat × ℤ)) (c : Nat),
    (mapGet (rows.foldl sumStep acc).2.2 c).getD 0 =
      (mapGet acc.2.2 c).getD 0 +
        ((rows.filter (fun r => r.category_id == some c)).map Row.amount).sum
  | [], acc, c => by simp
  | r :: rows, acc, c => by
    simp only [List.foldl_cons, List.filter_cons, foldl_sumStep_byCat rows]
    cases hcat : r.category_id with
    | none => simp [sumStep, hcat]
    | some c2 =>
      by_cases hc : c2 = c
      · subst hc
        simp only [sumStep, hcat, mapGet_mapSet_self, Option.getD_some,
          beq_self_eq_true, if_true, List.map_cons, List.sum_cons]
        ring
      · have hb : (some c2 == some c) = false := by simpa using hc
        simp only [sumStep, hcat, mapGet_mapSet_ne _ _ _ _ hc, hb, Bool.false_eq_true,
          if_false]

theorem mem_keys_mapSet : ∀ (m : List (Nat × ℤ)) (k : Nat) (v : ℤ) (x : Nat),
    x ∈ (mapSet m k v).map Prod.fst ↔ x = k ∨ x ∈ m.map Prod.fst
  | [], k, v, x => by simp [mapSet]
  | (k', v') :: rest, k, v, x => by
    simp only [mapSet]
    split_ifs with h
    · subst h
      simp only [List.map_cons, List.mem_cons]
      tauto
    · simp only [List.map_cons, List.mem_cons, mem_keys_mapSet rest k v x]
      tauto

theorem nodup_keys_mapSet : ∀ (m : List (Nat × ℤ)) (k : Nat) (v : ℤ),
    (m.map Prod.fst).Nodup → ((mapSet m k v).map Prod.fst).Nodup
  | [], k, v, _ => by simp [mapSet]
  | (k', v') :: rest, k, v, hnd => by
    simp only [List.map_cons, List.nodup_cons] at hnd
    simp only [mapSet]
    split_ifs with h
    · simp only [List.map_cons, List.nodup_cons]
      exact ⟨hnd.1, hnd.2⟩
    · simp only [List.map_cons, List.nodup_cons]
      refine ⟨?_, nodup_keys_mapSet rest k v hnd.2⟩
      rw [mem_keys_mapSet]
      rintro (rfl | hx)
      · exact h rfl
      · exact hnd.1 hx

theorem nodup_keys_foldl : ∀ (rows : List Row) (acc : ℤ × ℤ × List (Nat × ℤ)),
    ((acc.2.2).map Prod.fst).Nodup →
    (((rows.foldl sumStep acc).2.2).map Prod.fst).Nodup
  | [], _, h => h
  | r :: rows, acc, h => by
    rw [List.foldl_cons]
    apply nodup_keys_foldl rows
    cases hcat : r.category_id with
    | none => simpa [sumStep, hcat] using h
    | some c2 =>
      simp only [sumStep, hcat]
      exact nodup_keys_mapSet _ _ _ h

theorem mapGet_eq_of_mem : ∀ (m : List (Nat × ℤ)) (c : Nat) (t : ℤ),
    (m.map Prod.fst).Nodup → (c, t) ∈ m → mapGet m c = some t
  | [], _, _, _, h => by simp at h
  | (k', v') :: rest, c, t, hnd, hm => by
    simp only [List.map_cons, List.nodup_cons] at hnd
    rcases List.mem_cons.mp hm with heq | hmem
    · obtain ⟨rfl, rfl⟩ := Prod.mk.injEq .. ▸ heq.symm
      simp [mapGet]
    · by_cases h : k' = c
      · subst h
        exact absurd (List.mem_map_of_mem Prod.fst hmem) hnd.1
      · simp only [mapGet, if_neg h]
        exact mapGet_eq_of_mem rest c t hnd.2 hmem

/-- C9: every pair `(c, t)` in `byCategory` carries the plain sum of the
amounts of all fetched rows whose category is `c`, regardless of kind:
income and expense amounts enter with the same sign, so a category's
total is neither a net nor one-directional. -/
theorem C9_categoryTotal (rows : List Row) (c : Nat) (t : ℤ)
    (h : (c, t) ∈ (summarize rows).byCategory) :
    t = ((rows.filter (fun r => r.category_id == some c)).map Row.amount).sum := by
  have hmem : (c, t) ∈ (aggregate rows).2.2 := by
    have h2 : (c, t) ∈ sortByTotalDesc (aggregate rows).2.2 := h
    exact mem_sortByTotalDesc.mp h2
  have hget : mapGet (aggregate rows).2.2 c = some t :=
    mapGet_eq_of_mem _ _ _ (nodup_keys_foldl rows (0, 0, []) (by simp)) hmem
  have hval : (mapGet (aggregate rows).2.2 c).getD 0 =
      ((rows.filter (fun r => r.category_id == some c)).map Row.amount).sum := by
    simpa [aggregate, mapGet] using foldl_sumStep_byCat rows (0, 0, []) c
  rw [hget] at hval
  simpa using hval

/-- C9 witness: an income of 30 and an expense of 20 in the same
category produce the single pair (1, 50) — the magnitudes add up instead
of cancelling. -/
theorem C9_categoryTotal_witness :
    ((1, 50) : Nat × ℤ) ∈
      (summarize [{ type := "income", amount := 30, category_id := some 1 },
                  { type := "expense", amount := 20, category_id := some 1 }]).byCategory ∧
    (50 : ℤ) = (([{ type := "income", amount := 30, category_id := some 1 },
                  { type := "expense", amount := 20, category_id := some 1 }].filter
        (fun r => r.category_id == some 1)).map Row.amount).sum :=
  ⟨by decide,
   C9_categoryTotal [{ type := "income", amount := 30, category_id := some 1 },
                     { type := "expense", amount := 20, category_id := some 1 }] 1 50 (by decide)⟩

/-! ## Claim C10: goal mutations are not owner-filtered

The store command each handler issues, as a table plus the equality
filters chained onto the mutation.  routes/goals.ts PATCH/DELETE filter
on `id` alone and never consult the authenticated user (they do not even
resolve the profile); routes/transactions.ts PATCH/DELETE additionally
filter on `user_id` = the caller's profile id. -/

structure StoreCmd where
  table : String
  filters : List (String × Nat)
  deriving DecidableEq

/-- goals `PATCH /:id`: `update(...).eq('id', id)`. -/
def goalsPatchCmd (_authUser : Nat) (goalId : Nat) : StoreCmd :=
  { table := "financial_goal", filters := [("id", goalId)] }

/-- goals `DELETE /:id`: `delete().eq('id', id)`. -/
def goalsDeleteCmd (_authUser : Nat) (goalId : Nat) : StoreCmd :=
  { table := "financial_goal", filters := [("id", goalId)] }

/-- transactions `PATCH /:id`: `update(...).eq('id', id).eq('user_id', userId)`. -/
def txPatchCmd (profileId : Nat) (txId : Nat) : StoreCmd :=
  { table := "transaction", filters := [("id", txId), ("user_id", profileId)] }

/-- transactions `DELETE /:id`: `delete().eq('id', id).eq('user_id', userId)`. -/
def txDeleteCmd (profileId : Nat) (txId : Nat) : StoreCmd :=
  { table := "transaction", filters := [("id", txId), ("user_id", profileId)] }

/-- C10: two distinct authenticated users issuing the same goal PATCH or
DELETE cause the identical store mutation — the command does not depend
on the caller — whereas the transaction PATCH/DELETE commands of
distinct profiles always differ (they carry the owner filter). -/
theorem C10_goalMutationOwnerIndependent (u1 u2 g p1 p2 t : Nat)
    (_hu : u1 ≠ u2) (hp : p1 ≠ p2) :
    goalsPatchCmd u1 g = goalsPatchCmd u2 g ∧
    goalsDeleteCmd u1 g = goalsDeleteCmd u2 g ∧
    txPatchCmd p1 t ≠ txPatchCmd p2 t ∧
    txDeleteCmd p1 t ≠ txDeleteCmd p2 t := by
  refine ⟨rfl, rfl, ?_, ?_⟩ <;>
    · intro h
      apply hp
      simpa [txPatchCmd, txDeleteCmd, StoreCmd.mk.injEq] using h

/-- C10 witness: users 1 and 2 against goal 5, profiles 1 and 2 against
transaction 5. -/
theorem C10_goalMutationOwnerIndependent_witness :
    goalsPatchCmd 1 5 = goalsPatchCmd 2 5 ∧
    goalsDeleteCmd 1 5 = goalsDeleteCmd 2 5 ∧
    txPatchCmd 1 5 ≠ txPatchCmd 2 5 ∧
    txDeleteCmd 1 5 ≠ txDeleteCmd 2 5 :=
  C10_goalMutationOwnerIndependent 1 2 5 1 2 5 (by decide) (by decide)
